import Mathlib

/-!
Verification development for the TextNow SMS adapter (src/app.py).

The Python module is shallowly embedded: a Python callable is modelled
as a function from a call shape (the positional/keyword argument
pattern actually passed at a call site) into an outcome, which is either
a normal return (a value or None), a TypeError (the shape-mismatch
signal the adapter recovers from), or any other exception (which the
adapter propagates).  The object graph reachable from the client
handle is modelled as a type of nodes together with an attribute list
per node (in dir() enumeration order, which Python sorts
alphabetically) and an optional callable behaviour per node.
-/

/-- The argument shapes the adapter ever passes into a discovered
callable: two positional arguments, one positional argument, two
keyword arguments, or one keyword argument.  Argument values are
carried so that a shape records the exact call made. -/
inductive CallShape where
  | pos2 (a b : String)
  | pos1 (a : String)
  | kw2 (k1 v1 k2 v2 : String)
  | kw1 (k v : String)
deriving DecidableEq

/-- Outcome of one Python call: a normal return (the returned value,
with None modelled as `Option.none`), a TypeError carrying its
message, or any other exception carrying its message. -/
inductive CallResult (σ : Type) where
  | ok (v : Option σ)
  | typeError (e : String)
  | error (e : String)
deriving DecidableEq

/-- A Python callable, as the adapter sees it: a response for each call
shape it may be invoked with. -/
abbrev Fn (σ : Type) := CallShape → CallResult σ

/-- Result of `_try_call` (src/app.py lines 105-132): the value
returned by the first shape that was accepted, a propagated
non-TypeError exception, or the final RuntimeError once every shape in
the repertoire raised a TypeError. -/
inductive TryResult (σ : Type) where
  | ok (v : Option σ)
  | err (e : String)
  | noConvention
deriving DecidableEq

/-- Default destination keyword list of `_try_call` (src/app.py line 106). -/
def phone_keys_default : List String :=
  ["to", "phone", "number", "recipient", "contact", "send_to"]

/-- Default message keyword list of `_try_call` (src/app.py line 107). -/
def msg_keys_default : List String :=
  ["message", "text", "body", "content"]

/-- The ordered list of call shapes `_try_call` attempts (src/app.py
lines 109-131): positional `(dest, message)`, swapped positional
`(message, dest)`, the keyword cross-product of the two key lists, then
message-only keyword calls.  Every call site of `_try_call` in the
module passes no key-list overrides, so the defaults are inlined. -/
def repertoire (dest message : String) : List CallShape :=
  [CallShape.pos2 dest message, CallShape.pos2 message dest]
    ++ phone_keys_default.flatMap
        (fun p => msg_keys_default.map (fun m => CallShape.kw2 p dest m message))
    ++ msg_keys_default.map (fun m => CallShape.kw1 m message)

/-- The sequential try/except-TypeError loop body of `_try_call`: each
shape is attempted in order; a TypeError moves on and tries the next shape,
any other outcome ends the loop (a return value or a propagating
exception); exhaustion is the final RuntimeError. -/
def tryCallGo {σ : Type} (fn : Fn σ) : List CallShape → TryResult σ
  | [] => TryResult.noConvention
  | s :: rest =>
    match fn s with
    | CallResult.ok v => TryResult.ok v
    | CallResult.error e => TryResult.err e
    | CallResult.typeError _ => tryCallGo fn rest

/-- Embedding of `_try_call` (src/app.py lines 105-132). -/
def _try_call {σ : Type} (fn : Fn σ) (dest message : String) : TryResult σ :=
  tryCallGo fn (repertoire dest message)

/-- The shapes `_try_call` actually evaluates, in order: every shape up
until and including the first one whose outcome is not a TypeError. -/
def tryCallAttempts {σ : Type} (fn : Fn σ) : List CallShape → List CallShape
  | [] => []
  | s :: rest =>
    match fn s with
    | CallResult.typeError _ => s :: tryCallAttempts fn rest
    | _ => [s]

/-- Whether a call outcome is the shape-mismatch signal (TypeError). -/
def isTypeError {σ : Type} (r : CallResult σ) : Bool :=
  match r with
  | CallResult.typeError _ => true
  | _ => false

/-- How `_try_call` reports the outcome of the shape that ended the
loop: a return value becomes the call result, a non-TypeError
exception propagates.  (The TypeError case is unreachable where this
is used.) -/
def resultOf {σ : Type} (r : CallResult σ) : TryResult σ :=
  match r with
  | CallResult.ok v => TryResult.ok v
  | CallResult.error e => TryResult.err e
  | CallResult.typeError _ => TryResult.noConvention

/-- The shape order exactly as the specification phrases it:
(1) positional (destination, message); (2) positional swapped;
(3) the keyword cross-product of the ordered destination-key list
`to, phone, number, recipient, contact, send_to` with the ordered
message-key list `message, text, body, content`; (4) message-only
keyword calls, one per message-key name. -/
def claimedRepertoire (dest message : String) : List CallShape :=
  [CallShape.pos2 dest message, CallShape.pos2 message dest]
    ++ (["to", "phone", "number", "recipient", "contact", "send_to"].flatMap
        (fun p => ["message", "text", "body", "content"].map
          (fun m => CallShape.kw2 p dest m message)))
    ++ ["message", "text", "body", "content"].map
        (fun m => CallShape.kw1 m message)

theorem tryCallGo_char {σ : Type} (fn : Fn σ) :
    ∀ shapes : List CallShape,
      ((∀ s ∈ shapes, isTypeError (fn s) = true)
          ∧ tryCallGo fn shapes = TryResult.noConvention)
      ∨ (∃ pre s post, shapes = pre ++ s :: post
          ∧ (∀ t ∈ pre, isTypeError (fn t) = true)
          ∧ isTypeError (fn s) = false
          ∧ tryCallGo fn shapes = resultOf (fn s)) := by
  intro shapes
  induction shapes with
  | nil => exact Or.inl ⟨by simp, rfl⟩
  | cons s rest ih =>
    cases h : fn s with
    | typeError e =>
      rcases ih with ⟨hall, hres⟩ | ⟨pre, t, post, heq, hpre, ht, hres⟩
      · refine Or.inl ⟨?_, ?_⟩
        · intro x hx
          rcases List.mem_cons.mp hx with hx | hx
          · subst hx; simp [isTypeError, h]
          · exact hall x hx
        · simp [tryCallGo, h, hres]
      · refine Or.inr ⟨s :: pre, t, post, by simp [heq], ?_, ht, ?_⟩
        · intro x hx
          rcases List.mem_cons.mp hx with hx | hx
          · subst hx; simp [isTypeError, h]
          · exact hpre x hx
        · simp [tryCallGo, h, hres]
    | ok v =>
      exact Or.inr ⟨[], s, rest, rfl, by simp, by simp [isTypeError, h],
        by simp [tryCallGo, h, resultOf]⟩
    | error e =>
      exact Or.inr ⟨[], s, rest, rfl, by simp, by simp [isTypeError, h],
        by simp [tryCallGo, h, resultOf]⟩

theorem tryCallGo_skip {σ : Type} (fn : Fn σ) (pre rest : List CallShape)
    (h : ∀ t ∈ pre, isTypeError (fn t) = true) :
    tryCallGo fn (pre ++ rest) = tryCallGo fn rest := by
  induction pre with
  | nil => rfl
  | cons t pre ih =>
    have ht := h t (List.mem_cons_self t pre)
    cases hft : fn t with
    | typeError e =>
      simp only [List.cons_append, tryCallGo, hft]
      exact ih (fun x hx => h x (List.mem_cons_of_mem t hx))
    | ok v => simp [isTypeError, hft] at ht
    | error e => simp [isTypeError, hft] at ht

theorem tryCallGo_all_typeError {σ : Type} (fn : Fn σ)
    (shapes : List CallShape) (h : ∀ s ∈ shapes, isTypeError (fn s) = true) :
    tryCallGo fn shapes = TryResult.noConvention := by
  have := tryCallGo_skip fn shapes [] h
  simpa using this

theorem tryCallAttempts_isPre {σ : Type} (fn : Fn σ) :
    ∀ shapes : List CallShape,
      ∃ rest, tryCallAttempts fn shapes ++ rest = shapes := by
  intro shapes
  induction shapes with
  | nil => exact ⟨[], rfl⟩
  | cons s rest ih =>
    cases h : fn s with
    | typeError e =>
      obtain ⟨r, hr⟩ := ih
      exact ⟨r, by simp [tryCallAttempts, h, hr]⟩
    | ok v => exact ⟨rest, by simp [tryCallAttempts, h]⟩
    | error e => exact ⟨rest, by simp [tryCallAttempts, h]⟩

/-- Abstract description of one repertoire entry, forgetting the
concrete destination and message values. -/
inductive ShapeDesc where
  | posStd
  | posSwap
  | kwPair (p m : String)
  | kwMsg (m : String)
deriving DecidableEq

/-- The repertoire as abstract shape descriptions. -/
def descList : List ShapeDesc :=
  [ShapeDesc.posStd, ShapeDesc.posSwap]
    ++ phone_keys_default.flatMap
        (fun p => msg_keys_default.map (fun m => ShapeDesc.kwPair p m))
    ++ msg_keys_default.map (fun m => ShapeDesc.kwMsg m)

/-- Realizes a shape description at the given destination/message pair. -/
def interpDesc (dest message : String) : ShapeDesc → CallShape
  | ShapeDesc.posStd => CallShape.pos2 dest message
  | ShapeDesc.posSwap => CallShape.pos2 message dest
  | ShapeDesc.kwPair p m => CallShape.kw2 p dest m message
  | ShapeDesc.kwMsg m => CallShape.kw1 m message

theorem repertoire_eq_map (dest message : String) :
    repertoire dest message = descList.map (interpDesc dest message) := rfl

theorem interpDesc_inj (dest message : String) (h : dest ≠ message) :
    Function.Injective (interpDesc dest message) := by
  intro d1 d2 hd
  cases d1 <;> cases d2 <;> simp_all [interpDesc]

/-- C1: for every candidate callable and every (destination, message)
pair, `_try_call` tries argument shapes in exactly the fixed order the
claim states — positional (dest, message), swapped positional, the
keyword cross-product of the ordered destination-key list with the
ordered message-key list, then message-only keyword calls — and stops
at the first attempt whose outcome is not a TypeError (shape
mismatch): all shapes before the stopping one mismatched, and the
result is the outcome of the stopping shape (or the exhaustion error
when every shape mismatched). -/
theorem C1_shape_order (σ : Type) (fn : Fn σ) (dest message : String) :
    repertoire dest message = claimedRepertoire dest message
    ∧ _try_call fn dest message = tryCallGo fn (claimedRepertoire dest message)
    ∧ (((∀ s ∈ claimedRepertoire dest message, isTypeError (fn s) = true)
          ∧ _try_call fn dest message = TryResult.noConvention)
        ∨ (∃ pre s post, claimedRepertoire dest message = pre ++ s :: post
            ∧ (∀ t ∈ pre, isTypeError (fn t) = true)
            ∧ isTypeError (fn s) = false
            ∧ _try_call fn dest message = resultOf (fn s))) := by
  refine ⟨rfl, rfl, ?_⟩
  have h := tryCallGo_char fn (repertoire dest message)
  exact h

/-- Witness for C1 at a concrete callable and request. -/
theorem C1_shape_order_witness :
    repertoire "a" "b" = claimedRepertoire "a" "b" :=
  (C1_shape_order Unit (fun _ => CallResult.ok none) "a" "b").1

/-- C2: if every shape before some position of the repertoire raises a
TypeError and the shape at that position raises a non-TypeError error,
then `_try_call` propagates exactly that error.  The callable's
behaviour on all later shapes is unconstrained, so no later shape is
ever consulted: a downstream failure never falls through into the next
calling convention. -/
theorem C2_error_propagates (σ : Type) (fn : Fn σ) (dest message e : String)
    (pre : List CallShape) (s : CallShape) (post : List CallShape)
    (hsplit : repertoire dest message = pre ++ s :: post)
    (hpre : ∀ t ∈ pre, isTypeError (fn t) = true)
    (hs : fn s = CallResult.error e) :
    _try_call fn dest message = TryResult.err e := by
  unfold _try_call
  rw [hsplit, tryCallGo_skip fn pre _ hpre]
  simp [tryCallGo, hs]

/-- A stub callable that accepts the first positional shape but raises
a domain error there (spec example: quota exceeded). -/
def fnQuota : Fn Unit := fun _ => CallResult.error "quota exceeded"

/-- Witness for C2: the domain error from the very first shape is
propagated unchanged. -/
theorem C2_error_propagates_witness :
    _try_call fnQuota "a" "b" = TryResult.err "quota exceeded" :=
  C2_error_propagates Unit fnQuota "a" "b" "quota exceeded" []
    (CallShape.pos2 "a" "b") ((repertoire "a" "b").drop 1)
    (by decide) (by simp) rfl

/-- C8: if every shape of the repertoire raises a TypeError, the
invoker fails with the no-compatible-calling-convention error; the
sequence of shapes the invoker actually evaluates is an initial
segment of the repertoire (so each repertoire entry is evaluated at
most once per candidate per request); and whenever destination and
message differ, the repertoire itself contains no duplicate shape. -/
theorem C8_exhaustion (σ : Type) (fn : Fn σ) (dest message : String) :
    ((∀ s ∈ repertoire dest message, isTypeError (fn s) = true) →
      _try_call fn dest message = TryResult.noConvention)
    ∧ (∃ rest, tryCallAttempts fn (repertoire dest message) ++ rest
        = repertoire dest message)
    ∧ (dest ≠ message → (repertoire dest message).Nodup) := by
  refine ⟨?_, tryCallAttempts_isPre fn (repertoire dest message), ?_⟩
  · intro h
    exact tryCallGo_all_typeError fn (repertoire dest message) h
  · intro hne
    rw [repertoire_eq_map]
    exact List.Nodup.map (interpDesc_inj dest message hne) (by decide)

/-- A stub callable that raises a TypeError on every shape. -/
def fnAlwaysTE : Fn Unit := fun _ => CallResult.typeError "bad args"

/-- Witness for C8: full exhaustion yields the no-convention error,
and the repertoire for a concrete distinct pair is duplicate-free. -/
theorem C8_exhaustion_witness :
    _try_call fnAlwaysTE "a" "b" = TryResult.noConvention
    ∧ (repertoire "a" "b").Nodup :=
  ⟨(C8_exhaustion Unit fnAlwaysTE "a" "b").1 (by decide),
   (C8_exhaustion Unit fnAlwaysTE "a" "b").2.2 (by decide)⟩

/-- The object graph reachable from the client handle: for each node,
its named attributes in dir() enumeration order (Python sorts these
alphabetically; names are assumed pairwise distinct per node, as
Python attribute dictionaries guarantee), and an optional callable
behaviour (present exactly when the Python value is callable). -/
structure PyGraph (σ : Type) where
  members : σ → List (String × σ)
  callFn : σ → Option (Fn σ)

/-- Python getattr for a named attribute (none when absent, i.e.
hasattr is false). -/
def getAttr {σ : Type} (g : PyGraph σ) (s : σ) (name : String) : Option σ :=
  (g.members s).lookup name

/-- The pattern `hasattr(x, name) and callable(getattr(x, name))`,
returning the callable behaviour. -/
def callableAt {σ : Type} (g : PyGraph σ) (s : σ) (name : String) : Option (Fn σ) :=
  (getAttr g s name).bind g.callFn

/-- First-hit search over a name list: the for-loop-with-return
pattern all discovery helpers use.  `tag` builds the reported path
from the matching name. -/
def firstHit {σ : Type} (k : String → Option (Fn σ)) (tag : String → String) :
    List String → Option (String × Fn σ)
  | [] => none
  | n :: rest =>
    match k n with
    | some f => some (tag n, f)
    | none => firstHit k tag rest

/-- The fixed name list of `_find_direct_send` (src/app.py line 137). -/
def direct_send_names : List String :=
  ["send_sms", "send_message", "send_text", "text", "send", "sms", "message"]

/-- Embedding of `_find_direct_send` (src/app.py lines 135-140). -/
def _find_direct_send {σ : Type} (g : PyGraph σ) (client : σ) :
    Option (String × Fn σ) :=
  firstHit (callableAt g client) (fun n => n) direct_send_names

/-- The fixed candidate list of `_find_conversation_maker`
(src/app.py lines 145-154). -/
def maker_names : List String :=
  ["create_conversation", "get_conversation", "get_or_create_conversation",
   "open_conversation", "conversation_with", "start_conversation",
   "ensure_conversation", "conversation"]

/-- Embedding of `_find_conversation_maker` (src/app.py lines
143-164): the fixed candidates on the client itself, then the same
candidates on a `conversations` sub-object when that attribute
exists. -/
def _find_conversation_maker {σ : Type} (g : PyGraph σ) (client : σ) :
    Option (String × Fn σ) :=
  match firstHit (callableAt g client) (fun n => n) maker_names with
  | some r => some r
  | none =>
    match getAttr g client "conversations" with
    | some convs =>
        firstHit (callableAt g convs) (fun n => "conversations." ++ n) maker_names
    | none => none

/-- Whether `sub` begins the character list `s` (helper for the
Python substring operator). -/
def beginsWith : List Char → List Char → Bool
  | _, [] => true
  | [], _ :: _ => false
  | c :: cs, d :: ds => c == d && beginsWith cs ds

/-- Whether `sub` occurs contiguously inside the second list: the
Python expression `sub in s` on strings, at character-list level. -/
def containsSubList (sub : List Char) : List Char → Bool
  | [] => sub.isEmpty
  | c :: cs => beginsWith (c :: cs) sub || containsSubList sub cs

/-- Python `sub in s` on strings. -/
def containsSub (s sub : String) : Bool :=
  containsSubList sub.toList s.toList

/-- Python str.lower(), at character level (ASCII, which covers every
name the module compares). -/
def pyLower (s : String) : String := String.mk (s.toList.map Char.toLower)

/-- Python str.startswith(pre). -/
def pyStartsWith (s pre : String) : Bool := beginsWith s.toList pre.toList

/-- Python str.strip(): drop leading and trailing whitespace. -/
def pyStrip (s : String) : String :=
  String.mk (((s.toList.dropWhile Char.isWhitespace).reverse.dropWhile
    Char.isWhitespace).reverse)

/-- The send-ish hint terms of the member scan (src/app.py line 177). -/
def send_hints : List String := ["send", "text", "message", "sms"]

/-- The fixed name list of `_find_conversation_sender`
(src/app.py line 169). -/
def conv_sender_names : List String :=
  ["send", "send_message", "send_text", "text", "message", "reply"]

/-- The member scan of `_find_conversation_sender` (src/app.py lines
172-178): walk inspect.getmembers output restricted to callables,
skip names starting with an underscore, return the first whose
lowercased name contains a send-ish hint. -/
def senderScan {σ : Type} (g : PyGraph σ) : List (String × σ) → Option (String × Fn σ)
  | [] => none
  | (n, v) :: rest =>
    match g.callFn v with
    | some f =>
      if pyStartsWith (pyLower n) "_" then senderScan g rest
      else if send_hints.any (fun k => containsSub (pyLower n) k) then some (n, f)
      else senderScan g rest
    | none => senderScan g rest

/-- Embedding of `_find_conversation_sender` (src/app.py lines 167-179). -/
def _find_conversation_sender {σ : Type} (g : PyGraph σ) (conv : σ) :
    Option (String × Fn σ) :=
  match firstHit (callableAt g conv) (fun n => n) conv_sender_names with
  | some r => some r
  | none => senderScan g (g.members conv)

/-- The nested sub-object names tried when the conversation itself has
no send-ish method (src/app.py line 241). -/
def conv_sub_names : List String := ["messages", "sms", "api", "driver"]

/-- The fallback loop over nested sub-objects (src/app.py lines
240-247): stops at the first sub-object carrying a send-ish method. -/
def senderFallback {σ : Type} (g : PyGraph σ) (conv : σ) :
    List String → Option (String × Fn σ)
  | [] => none
  | sub :: rest =>
    match getAttr g conv sub with
    | none => senderFallback g conv rest
    | some so =>
      match _find_conversation_sender g so with
      | some (n, f) => some (sub ++ "." ++ n, f)
      | none => senderFallback g conv rest

/-- The complete sender search of the conversation flow (src/app.py
lines 238-250): the conversation object first, then the nested
sub-objects. -/
def findSenderWithFallback {σ : Type} (g : PyGraph σ) (conv : σ) :
    Option (String × Fn σ) :=
  match _find_conversation_sender g conv with
  | some r => some r
  | none => senderFallback g conv conv_sub_names

/-- Instrumentation of the sub-object loop: the objects whose members
the sender search enumerates, in order and with multiplicity. -/
def senderScanSubs {σ : Type} (g : PyGraph σ) (conv : σ) : List String → List σ
  | [] => []
  | sub :: rest =>
    match getAttr g conv sub with
    | none => senderScanSubs g conv rest
    | some so =>
      match _find_conversation_sender g so with
      | some _ => [so]
      | none => so :: senderScanSubs g conv rest

/-- Instrumentation of the whole sender search (src/app.py lines
238-247): every object whose members are enumerated, in order and
with multiplicity. -/
def senderScanNodes {σ : Type} (g : PyGraph σ) (conv : σ) : List σ :=
  match _find_conversation_sender g conv with
  | some _ => [conv]
  | none => conv :: senderScanSubs g conv conv_sub_names

/-- The keyword guesses tried on the conversation maker
(src/app.py line 227). -/
def maker_phone_keys : List String := ["to", "phone", "number", "contact", "recipient"]

/-- Python repr of a list of strings, as f-string interpolation of
`tried[:3]` renders it. -/
def pyListRepr (l : List String) : String :=
  "[" ++ String.intercalate ", " (l.map (fun s => "\x27" ++ s ++ "\x27")) ++ "]"

/-- The keyword attempts on the maker (src/app.py lines 226-232): the
loop breaks at the first call that does not raise a TypeError, even
when it returned None; TypeError messages accumulate in `tried`;
other exceptions propagate. -/
def callMakerKw {σ : Type} (makerName : String) (maker : Fn σ) (dest : String)
    (tried : List String) : List String → Except String (Option σ × List String)
  | [] => Except.ok (none, tried)
  | p :: rest =>
    match maker (CallShape.kw1 p dest) with
    | CallResult.ok v => Except.ok (v, tried)
    | CallResult.typeError e =>
        callMakerKw makerName maker dest
          (tried ++ [makerName ++ "(" ++ p ++ "=to) -> " ++ e]) rest
    | CallResult.error e => Except.error e

/-- Materializing the conversation (src/app.py lines 217-232): the
positional guess first; if it raised a TypeError or returned None,
the keyword guesses; non-TypeError exceptions propagate. -/
def callMaker {σ : Type} (makerName : String) (maker : Fn σ) (dest : String) :
    Except String (Option σ × List String) :=
  match maker (CallShape.pos1 dest) with
  | CallResult.ok (some c) => Except.ok (some c, [])
  | CallResult.ok none => callMakerKw makerName maker dest [] maker_phone_keys
  | CallResult.typeError e =>
      callMakerKw makerName maker dest
        [makerName ++ "(to) -> " ++ e] maker_phone_keys
  | CallResult.error e => Except.error e

/-- Result of the `/send` handler: the success payload (used path,
normalized destination, message length) or an HTTPException. -/
inductive SendResult where
  | ok (used : String) (dest : String) (messageLen : Nat)
  | httpError (status : Nat) (detail : String)
deriving DecidableEq

/-- Detail text prepended by the except-Exception handler of `/send`
(src/app.py line 270). -/
def upstreamPre : String := "Upstream TextNow error: "

/-- Message of the RuntimeError `_try_call` raises on exhaustion
(src/app.py line 132). -/
def noConventionDetail : String :=
  "Could not call the discovered send method with known argument patterns."

/-- Message of the RuntimeError raised when neither a direct sender
nor a conversation maker exists (src/app.py line 214). -/
def noCandidatesDetail : String :=
  "No send method or conversation maker found on client."

/-- Message of the RuntimeError raised when a conversation was
obtained but no send-ish method was found on it (src/app.py line 250). -/
def noSendishDetail : String :=
  "Conversation obtained, but no send-ish method on it."

/-- The body of the `/send` handler after client acquisition
(src/app.py lines 205-265), with the surrounding
except-Exception-to-502 translation (lines 267-270) applied to every
RuntimeError and propagating callable exception. -/
def send_sms_core {σ : Type} (g : PyGraph σ) (client : σ)
    (dest message : String) : SendResult :=
  match _find_direct_send g client with
  | some (name, f) =>
    match _try_call f dest message with
    | TryResult.ok _ => SendResult.ok ("client." ++ name) dest message.length
    | TryResult.err e => SendResult.httpError 502 (upstreamPre ++ e)
    | TryResult.noConvention =>
        SendResult.httpError 502 (upstreamPre ++ noConventionDetail)
  | none =>
    match _find_conversation_maker g client with
    | none => SendResult.httpError 502 (upstreamPre ++ noCandidatesDetail)
    | some (makerName, maker) =>
      match callMaker makerName maker dest with
      | Except.error e => SendResult.httpError 502 (upstreamPre ++ e)
      | Except.ok (none, tried) =>
          SendResult.httpError 502 (upstreamPre ++ "Found \x27" ++ makerName
            ++ "\x27 but couldn\x27t call it with the phone number. Tried: "
            ++ pyListRepr (tried.take 3))
      | Except.ok (some conv, _) =>
        match findSenderWithFallback g conv with
        | none => SendResult.httpError 502 (upstreamPre ++ noSendishDetail)
        | some (sendName, sendFn) =>
          match sendFn (CallShape.pos1 message) with
          | CallResult.ok _ =>
              SendResult.ok ("client." ++ makerName ++ "(...)." ++ sendName)
                dest message.length
          | CallResult.error e => SendResult.httpError 502 (upstreamPre ++ e)
          | CallResult.typeError _ =>
            match _try_call sendFn dest message with
            | TryResult.ok _ =>
                SendResult.ok ("client." ++ makerName ++ "(...)." ++ sendName)
                  dest message.length
            | TryResult.err e => SendResult.httpError 502 (upstreamPre ++ e)
            | TryResult.noConvention =>
                SendResult.httpError 502 (upstreamPre ++ noConventionDetail)

/-- Detail of the HTTPException raised by `normalize_number`
(src/app.py line 95). -/
def invalidPhoneDetail : String :=
  "Invalid phone number format. Use 10-digit US or E.164."

/-- Embedding of `normalize_number` (src/app.py lines 88-96).
String.trim stands in for str.strip and digit classification is
ASCII, which agrees with Python on the inputs the service documents. -/
def normalize_number (raw : String) : Except String String :=
  if ((pyStrip raw).toList.filter Char.isDigit).length = 10 then
    Except.ok ("+1" ++ String.mk ((pyStrip raw).toList.filter Char.isDigit))
  else if pyStartsWith (pyStrip raw) "+" = true
      ∧ 8 ≤ ((pyStrip raw).toList.filter Char.isDigit).length then
    Except.ok (pyStrip raw)
  else Except.error invalidPhoneDetail

/-- The request body of `/send` (the pydantic SendBody model);
`dest` is the field the Python model names `to`. -/
structure SendBody where
  dest : String
  message : String

/-- The full `/send` handler (src/app.py lines 199-270): destination
normalization happens first and outside the try block, then client
acquisition (whose failures the except-Exception handler turns into a
502), then the discovery/invocation core. -/
def send_sms {σ : Type} (g : PyGraph σ) (clientRes : Except String σ)
    (body : SendBody) : SendResult :=
  match normalize_number body.dest with
  | Except.error d => SendResult.httpError 400 d
  | Except.ok dest =>
    match clientRes with
    | Except.error e => SendResult.httpError 502 (upstreamPre ++ e)
    | Except.ok client => send_sms_core g client dest body.message

/-- Result of the `/debug` handler. -/
inductive DebugResult where
  | ok (attrsPreview : List String)
  | httpError (status : Nat) (detail : String)
deriving DecidableEq

/-- Embedding of the `/debug` handler (src/app.py lines 187-196):
client construction failures become a 500; otherwise the first 200
attribute names not starting with an underscore are returned. -/
def debug {σ : Type} (g : PyGraph σ) (clientRes : Except String σ) : DebugResult :=
  match clientRes with
  | Except.error e => DebugResult.httpError 500 ("Client init failed: " ++ e)
  | Except.ok client =>
      DebugResult.ok ((((g.members client).map Prod.fst).filter
        (fun n => !(pyStartsWith n "_"))).take 200)

/-- Number of dot-separated segments of a path: dots counted plus one. -/
def dotSegments (s : String) : Nat := s.toList.count '.' + 1

theorem firstHit_none {σ : Type} (k : String → Option (Fn σ))
    (tag : String → String) :
    ∀ names : List String, (∀ n ∈ names, k n = none) →
      firstHit k tag names = none := by
  intro names h
  induction names with
  | nil => rfl
  | cons n rest ih =>
    have hn := h n (List.mem_cons_self n rest)
    simp only [firstHit, hn]
    exact ih (fun x hx => h x (List.mem_cons_of_mem n hx))

theorem firstHit_split {σ : Type} (k : String → Option (Fn σ))
    (tag : String → String) :
    ∀ (names : List String) (n : String) (f : Fn σ),
      firstHit k tag names = some (n, f) →
      ∃ m pre post, names = pre ++ m :: post ∧ n = tag m ∧ k m = some f
        ∧ (∀ x ∈ pre, k x = none) := by
  intro names
  induction names with
  | nil => intro n f h; simp [firstHit] at h
  | cons x rest ih =>
    intro n f h
    cases hk : k x with
    | some fx =>
      simp only [firstHit, hk] at h
      rw [Option.some.injEq, Prod.mk.injEq] at h
      exact ⟨x, [], rest, rfl, h.1.symm, by rw [hk, h.2], by simp⟩
    | none =>
      simp only [firstHit, hk] at h
      obtain ⟨m, pre, post, heq, hn, hm, hpre⟩ := ih n f h
      refine ⟨m, x :: pre, post, by simp [heq], hn, hm, ?_⟩
      intro y hy
      rcases List.mem_cons.mp hy with hy | hy
      · subst hy; exact hk
      · exact hpre y hy

theorem firstHit_mem {σ : Type} (k : String → Option (Fn σ))
    (tag : String → String) (names : List String) (n : String) (f : Fn σ)
    (h : firstHit k tag names = some (n, f)) :
    ∃ m ∈ names, n = tag m ∧ k m = some f := by
  obtain ⟨m, pre, post, heq, hn, hm, _⟩ := firstHit_split k tag names n f h
  exact ⟨m, by simp [heq], hn, hm⟩

theorem senderScan_mem {σ : Type} (g : PyGraph σ) :
    ∀ (l : List (String × σ)) (n : String) (f : Fn σ),
      senderScan g l = some (n, f) → ∃ v, (n, v) ∈ l := by
  intro l
  induction l with
  | nil => intro n f h; simp [senderScan] at h
  | cons p rest ih =>
    intro n f h
    obtain ⟨pn, pv⟩ := p
    cases hc : g.callFn pv with
    | some fv =>
      simp only [senderScan, hc] at h
      by_cases hu : pyStartsWith (pyLower pn) "_"
      · rw [if_pos hu] at h
        obtain ⟨v, hv⟩ := ih n f h
        exact ⟨v, List.mem_cons_of_mem _ hv⟩
      · rw [if_neg hu] at h
        by_cases hh : send_hints.any (fun k => containsSub (pyLower pn) k) = true
        · rw [if_pos hh] at h
          rw [Option.some.injEq, Prod.mk.injEq] at h
          exact ⟨pv, by rw [← h.1]; exact List.mem_cons_self _ _⟩
        · rw [if_neg hh] at h
          obtain ⟨v, hv⟩ := ih n f h
          exact ⟨v, List.mem_cons_of_mem _ hv⟩
    | none =>
      simp only [senderScan, hc] at h
      obtain ⟨v, hv⟩ := ih n f h
      exact ⟨v, List.mem_cons_of_mem _ hv⟩

theorem lookup_mem {σ : Type} :
    ∀ (l : List (String × σ)) (a : String) (b : σ),
      l.lookup a = some b → (a, b) ∈ l := by
  intro l
  induction l with
  | nil => intro a b h; simp [List.lookup] at h
  | cons p rest ih =>
    intro a b h
    obtain ⟨k, v⟩ := p
    by_cases hak : (a == k) = true
    · have hek : a = k := eq_of_beq hak
      subst hek
      simp [List.lookup] at h
      simp [h]
    · have h' : List.lookup a ((k, v) :: rest) = List.lookup a rest := by
        simp only [List.lookup]
        rw [Bool.not_eq_true] at hak
        rw [hak]
      rw [h'] at h
      exact List.mem_cons_of_mem _ (ih a b h)

theorem beginsWith_append (l r : List Char) : beginsWith (l ++ r) l = true := by
  induction l with
  | nil => cases r with
    | nil => rfl
    | cons c cs => rfl
  | cons c cs ih => simp [beginsWith, ih]

theorem containsSubList_of_beginsWith (s sub : List Char)
    (h : beginsWith s sub = true) : containsSubList sub s = true := by
  cases s with
  | nil =>
    cases sub with
    | nil => rfl
    | cons d ds => simp [beginsWith] at h
  | cons c cs => simp [containsSubList, h]

theorem containsSubList_append (pre sub post : List Char) :
    containsSubList sub (pre ++ sub ++ post) = true := by
  induction pre with
  | nil =>
    simp only [List.nil_append]
    exact containsSubList_of_beginsWith _ _ (beginsWith_append sub post)
  | cons c cs ih =>
    simp only [List.cons_append, containsSubList, Bool.or_eq_true]
    right
    simpa [List.append_assoc] using ih

theorem containsSub_in_used (a b c d : String) :
    containsSub (a ++ b ++ c ++ d) b = true := by
  unfold containsSub
  have h : (a ++ b ++ c ++ d).toList
      = a.toList ++ b.toList ++ (c.toList ++ d.toList) := by
    show ((a.data ++ b.data) ++ c.data) ++ d.data
      = a.data ++ b.data ++ (c.data ++ d.data)
    simp [List.append_assoc]
  rw [h]
  exact containsSubList_append _ _ _

theorem containsSub_last (a b : String) : containsSub (a ++ b) b = true := by
  unfold containsSub
  have h : (a ++ b).toList = a.toList ++ b.toList ++ [] := by
    show a.data ++ b.data = (a.data ++ b.data) ++ []
    simp
  rw [h]
  exact containsSubList_append _ _ _

/-- Nodes of a client exposing only `conversations.create(number)`,
whose returned conversation carries a `send` method (the end-to-end
stub of the specification's two-phase test). -/
inductive N3 where
  | client
  | convs
  | create
  | conv
  | sendm
deriving DecidableEq, Fintype

/-- The `create` callable: accepts one positional argument and returns
the conversation object; every other shape mismatches. -/
def createFn3 : Fn N3 := fun sh =>
  match sh with
  | CallShape.pos1 _ => CallResult.ok (some N3.conv)
  | _ => CallResult.typeError "unexpected arguments"

/-- The conversation's `send` callable: accepts one positional message. -/
def sendFn3 : Fn N3 := fun sh =>
  match sh with
  | CallShape.pos1 _ => CallResult.ok none
  | _ => CallResult.typeError "unexpected arguments"

/-- Graph of the `conversations.create` stub client. -/
def g3 : PyGraph N3 :=
  ⟨fun s =>
    match s with
    | N3.client => [("conversations", N3.convs)]
    | N3.convs => [("create", N3.create)]
    | N3.conv => [("send", N3.sendm)]
    | _ => [],
   fun s =>
    match s with
    | N3.create => some createFn3
    | N3.sendm => some sendFn3
    | _ => none⟩

/-- Counterexample to C3: a client exposing only a conversation maker
(`conversations.create`, returning an object with a working `send`)
does not succeed — the maker search knows only the fixed candidate
names (`create_conversation`, ..., `conversation`), never `create`, so
the request fails with the no-candidates error instead of reporting a
used path with `create` and `send` segments. -/
theorem C3_counterexample :
    g3.callFn N3.create = some createFn3
    ∧ createFn3 (CallShape.pos1 "+15551234567") = CallResult.ok (some N3.conv)
    ∧ (callableAt g3 N3.conv "send").isSome = true
    ∧ send_sms_core g3 N3.client "+15551234567" "hi"
        = SendResult.httpError 502 (upstreamPre ++ noCandidatesDetail) :=
  ⟨rfl, rfl, rfl, rfl⟩

/-- C3 (amended): the conversation flow runs only when no direct
sender exists — if a direct sender is found and its invocation
succeeds, the reported path is the direct one — and when the client
exposes a conversation maker under one of the recognized names
(`create_conversation`, `get_conversation`,
`get_or_create_conversation`, `open_conversation`,
`conversation_with`, `start_conversation`, `ensure_conversation`,
`conversation`, directly or on a `conversations` sub-object) whose
materialization yields a conversation with a send-ish method accepting
the message positionally, the request succeeds and the reported
used-path contains both the maker segment and the sender segment. -/
theorem C3_amended (σ : Type) (g : PyGraph σ) (client conv : σ)
    (dest message makerName sendName : String) (maker sendFn : Fn σ)
    (tr : List String) :
    (∀ n f w, _find_direct_send g client = some (n, f) →
        _try_call f dest message = TryResult.ok w →
        send_sms_core g client dest message
          = SendResult.ok ("client." ++ n) dest message.length)
    ∧ (_find_direct_send g client = none →
        _find_conversation_maker g client = some (makerName, maker) →
        callMaker makerName maker dest = Except.ok (some conv, tr) →
        findSenderWithFallback g conv = some (sendName, sendFn) →
        ∀ w, sendFn (CallShape.pos1 message) = CallResult.ok w →
          send_sms_core g client dest message
            = SendResult.ok ("client." ++ makerName ++ "(...)." ++ sendName)
                dest message.length
          ∧ containsSub ("client." ++ makerName ++ "(...)." ++ sendName)
              makerName = true
          ∧ containsSub ("client." ++ makerName ++ "(...)." ++ sendName)
              sendName = true) := by
  constructor
  · intro n f w hdirect hcall
    simp only [send_sms_core, hdirect, hcall]
  · intro hdirect hmaker hconv hsender w hcall
    refine ⟨?_, ?_, ?_⟩
    · simp only [send_sms_core, hdirect, hmaker, hconv, hsender, hcall]
    · exact containsSub_in_used "client." makerName "(...)." sendName
    · exact containsSub_last ("client." ++ makerName ++ "(...).") sendName

/-- Witness for the amended C3 on a client exposing only
`conversations.create_conversation(number)`, a recognized maker name. -/
inductive N3w where
  | client
  | convs
  | create
  | conv
  | sendm
deriving DecidableEq, Fintype

/-- Maker callable of the witness client. -/
def createFn3w : Fn N3w := fun sh =>
  match sh with
  | CallShape.pos1 _ => CallResult.ok (some N3w.conv)
  | _ => CallResult.typeError "unexpected arguments"

/-- Sender callable of the witness client's conversation. -/
def sendFn3w : Fn N3w := fun sh =>
  match sh with
  | CallShape.pos1 _ => CallResult.ok none
  | _ => CallResult.typeError "unexpected arguments"

/-- Graph of the witness client: only
`conversations.create_conversation`, returning a conversation with
`send`. -/
def g3w : PyGraph N3w :=
  ⟨fun s =>
    match s with
    | N3w.client => [("conversations", N3w.convs)]
    | N3w.convs => [("create_conversation", N3w.create)]
    | N3w.conv => [("send", N3w.sendm)]
    | _ => [],
   fun s =>
    match s with
    | N3w.create => some createFn3w
    | N3w.sendm => some sendFn3w
    | _ => none⟩

/-- Witness for C3 (amended): the two-phase flow succeeds on the
witness client and the used path contains the maker and sender
segments. -/
theorem C3_amended_witness :
    send_sms_core g3w N3w.client "+15551234567" "hi"
      = SendResult.ok
          ("client." ++ "conversations.create_conversation" ++ "(...)." ++ "send")
          "+15551234567" ("hi".length)
    ∧ containsSub
        ("client." ++ "conversations.create_conversation" ++ "(...)." ++ "send")
        "conversations.create_conversation" = true
    ∧ containsSub
        ("client." ++ "conversations.create_conversation" ++ "(...)." ++ "send")
        "send" = true :=
  (C3_amended N3w g3w N3w.client N3w.conv "+15551234567" "hi"
      "conversations.create_conversation" "send" createFn3w sendFn3w []).2
    rfl rfl rfl rfl none rfl

/-- Nodes of a client with a first-ranked candidate that raises a
domain error and a second candidate that would succeed. -/
inductive N4 where
  | client
  | sendSmsN
  | sendMessageN
deriving DecidableEq, Fintype

/-- The `send_sms` member: accepts the positional pair but raises a
domain error (quota exceeded) from within its business logic. -/
def quotaFn : Fn N4 := fun _ => CallResult.error "quota exceeded"

/-- The `send_message` member: accepts every shape and succeeds. -/
def okFn4 : Fn N4 := fun _ => CallResult.ok none

/-- Graph with both members present (dir order is alphabetical). -/
def g4 : PyGraph N4 :=
  ⟨fun s =>
    match s with
    | N4.client => [("send_message", N4.sendMessageN), ("send_sms", N4.sendSmsN)]
    | _ => [],
   fun s =>
    match s with
    | N4.sendSmsN => some quotaFn
    | N4.sendMessageN => some okFn4
    | _ => none⟩

/-- Counterexample to C4: the first candidate's propagating error
aborts the request at once with a 502 whose detail is just the
underlying error text — no candidate count — even though a second
candidate (`send_message`) would have succeeded; the search does not
continue. -/
theorem C4_counterexample :
    send_sms_core g4 N4.client "+15551234567" "hi"
      = SendResult.httpError 502 (upstreamPre ++ "quota exceeded")
    ∧ _try_call okFn4 "+15551234567" "hi" = TryResult.ok none
    ∧ (callableAt g4 N4.client "send_message").isSome = true :=
  ⟨rfl, rfl, rfl⟩

/-- C4 (amended): a propagating (non-TypeError) failure from the
single selected direct candidate aborts the request immediately: the
result is a 502 carrying the underlying error text, and no further
candidate is consulted (the conclusion is determined by that one
candidate alone). -/
theorem C4_amended (σ : Type) (g : PyGraph σ) (client : σ)
    (dest message n e : String) (f : Fn σ)
    (hdirect : _find_direct_send g client = some (n, f))
    (herr : _try_call f dest message = TryResult.err e) :
    send_sms_core g client dest message
      = SendResult.httpError 502 (upstreamPre ++ e) := by
  simp only [send_sms_core, hdirect, herr]

/-- Witness for C4 (amended) on the concrete two-candidate client. -/
theorem C4_amended_witness :
    send_sms_core g4 N4.client "+15551234567" "hi"
      = SendResult.httpError 502 (upstreamPre ++ "quota exceeded") :=
  C4_amended N4 g4 N4.client "+15551234567" "hi" "send_sms" "quota exceeded"
    quotaFn rfl rfl

/-- Nodes of a client with a single non-callable attribute. -/
inductive N5 where
  | client
  | cfg
deriving DecidableEq, Fintype

/-- A client whose only public attribute, `config`, is not callable
and contains no discovery hint. -/
def g5 : PyGraph N5 :=
  ⟨fun s =>
    match s with
    | N5.client => [("config", N5.cfg)]
    | _ => [],
   fun _ => none⟩

/-- Counterexample to C5: the diagnostic endpoint does not return a
ranked candidate list with paths and parameter names — it returns the
bare attribute names: here it reports `config`, which is not callable
and is no discovery candidate at all (discovery finds nothing on this
client). -/
theorem C5_counterexample :
    debug g5 (Except.ok N5.client) = DebugResult.ok ["config"]
    ∧ callableAt g5 N5.client "config" = none
    ∧ _find_direct_send g5 N5.client = none
    ∧ _find_conversation_maker g5 N5.client = none :=
  ⟨rfl, rfl, rfl, rfl⟩

/-- C5 (amended): the diagnostic endpoint reads only the attribute
names of the client: it never invokes any member, so its output is
unchanged under any change of the callables' behaviour (and of their
presence); what it returns is the first 200 non-underscore attribute
names, not a ranked candidate list. -/
theorem C5_amended (σ : Type) (g g2 : PyGraph σ)
    (h : g.members = g2.members) (clientRes : Except String σ) :
    debug g clientRes = debug g2 clientRes := by
  unfold debug
  cases clientRes with
  | error e => rfl
  | ok client => rw [h]

/-- Two graphs with identical attribute names but entirely different
callable behaviour. -/
def membersW : Unit → List (String × Unit) := fun _ => [("send", ())]

/-- First witness graph: nothing callable. -/
def gW1 : PyGraph Unit := ⟨membersW, fun _ => none⟩

/-- Second witness graph: everything callable. -/
def gW2 : PyGraph Unit := ⟨membersW, fun _ => some (fun _ => CallResult.ok none)⟩

/-- Witness for C5 (amended): same names, different callables, equal
diagnostic output. -/
theorem C5_amended_witness : debug gW1 (Except.ok ()) = debug gW2 (Except.ok ()) :=
  C5_amended Unit gW1 gW2 rfl (Except.ok ())

theorem senderScanSubs_length {σ : Type} (g : PyGraph σ) (conv : σ) :
    ∀ names : List String, (senderScanSubs g conv names).length ≤ names.length := by
  intro names
  induction names with
  | nil => exact Nat.le_refl 0
  | cons sub rest ih =>
    cases hso : getAttr g conv sub with
    | none =>
      simp only [senderScanSubs, hso]
      exact Nat.le_succ_of_le ih
    | some so =>
      cases hs : _find_conversation_sender g so with
      | some r =>
        simp only [senderScanSubs, hso, hs, List.length_cons, List.length_nil]
        exact Nat.succ_le_succ (Nat.zero_le _)
      | none =>
        simp only [senderScanSubs, hso, hs, List.length_cons]
        exact Nat.succ_le_succ ih

theorem senderScanNodes_length {σ : Type} (g : PyGraph σ) (conv : σ) :
    (senderScanNodes g conv).length ≤ 5 := by
  unfold senderScanNodes
  cases hs : _find_conversation_sender g conv with
  | some r => simp
  | none =>
    simp only [List.length_cons]
    have h := senderScanSubs_length g conv conv_sub_names
    have h4 : conv_sub_names.length = 4 := rfl
    omega

theorem count_append_str (a b : String) (c : Char) :
    (a ++ b).toList.count c = a.toList.count c + b.toList.count c := by
  show (a.data ++ b.data).count c = a.data.count c + b.data.count c
  simp

theorem direct_names_dotfree :
    ∀ n ∈ direct_send_names, n.toList.count '.' = 0 := by decide

theorem maker_names_dotfree :
    ∀ n ∈ maker_names, n.toList.count '.' = 0 := by decide

theorem conv_sender_names_dotfree :
    ∀ n ∈ conv_sender_names, n.toList.count '.' = 0 := by decide

theorem conv_sub_names_dotfree :
    ∀ n ∈ conv_sub_names, n.toList.count '.' = 0 := by decide

theorem maker_path {σ : Type} (g : PyGraph σ) (client : σ) (n : String) (f : Fn σ)
    (h : _find_conversation_maker g client = some (n, f)) :
    n ∈ maker_names ∨ ∃ m ∈ maker_names, n = "conversations." ++ m := by
  unfold _find_conversation_maker at h
  split at h
  · rename_i r hr
    rw [Option.some.injEq] at h
    subst h
    obtain ⟨m, hm, hn, _⟩ := firstHit_mem _ _ _ _ _ hr
    exact Or.inl (hn ▸ hm)
  · split at h
    · obtain ⟨m, hm, hn, _⟩ := firstHit_mem _ _ _ _ _ h
      exact Or.inr ⟨m, hm, hn⟩
    · exact absurd h (by simp)

theorem conv_sender_dotfree {σ : Type} (g : PyGraph σ) (conv : σ)
    (hdot : ∀ s : σ, ∀ p ∈ g.members s, p.fst.toList.count '.' = 0)
    (n : String) (f : Fn σ) (h : _find_conversation_sender g conv = some (n, f)) :
    n.toList.count '.' = 0 := by
  unfold _find_conversation_sender at h
  split at h
  · rename_i r hr
    rw [Option.some.injEq] at h
    subst h
    obtain ⟨m, hm, hn, _⟩ := firstHit_mem _ _ _ _ _ hr
    rw [hn]
    exact conv_sender_names_dotfree m hm
  · obtain ⟨v, hv⟩ := senderScan_mem g _ n f h
    exact hdot conv (n, v) hv

theorem senderFallback_dots {σ : Type} (g : PyGraph σ) (conv : σ)
    (hdot : ∀ s : σ, ∀ p ∈ g.members s, p.fst.toList.count '.' = 0) :
    ∀ names : List String, (∀ x ∈ names, x.toList.count '.' = 0) →
      ∀ n f, senderFallback g conv names = some (n, f) →
        n.toList.count '.' ≤ 1 := by
  intro names
  induction names with
  | nil => intro _ n f h; simp [senderFallback] at h
  | cons sub rest ih =>
    intro hnames n f h
    unfold senderFallback at h
    split at h
    · exact ih (fun x hx => hnames x (List.mem_cons_of_mem _ hx)) n f h
    · rename_i so hso
      split at h
      · rename_i pn pf hp
        rw [Option.some.injEq, Prod.mk.injEq] at h
        rw [← h.1]
        rw [count_append_str, count_append_str]
        have h1 := hnames sub (List.mem_cons_self _ _)
        have h2 : pn.toList.count '.' = 0 :=
          conv_sender_dotfree g so hdot pn pf hp
        rw [h1, h2]
        decide
      · exact ih (fun x hx => hnames x (List.mem_cons_of_mem _ hx)) n f h

/-- C6 (amended): every sender search enumerates at most five objects
(the conversation plus the four fixed sub-names) on every graph, even
cyclic ones, which is why discovery always terminates; the direct-send
and maker candidate paths, qualified from the client root, have at
most four dot-segments; and on a graph whose attribute names are
dot-free (as Python identifiers are), every sender path has at most
two dot-segments.  There are, however, no max_depth or max_nodes
parameters in the code: the bounds come from the fixed name lists. -/
theorem C6_amended (σ : Type) (g : PyGraph σ) (conv client : σ) :
    (senderScanNodes g conv).length ≤ 5
    ∧ (∀ n f, _find_direct_send g client = some (n, f) →
        dotSegments ("client." ++ n) ≤ 4)
    ∧ (∀ n f, _find_conversation_maker g client = some (n, f) →
        dotSegments ("client." ++ n) ≤ 4)
    ∧ ((∀ s : σ, ∀ p ∈ g.members s, p.fst.toList.count '.' = 0) →
        ∀ n f, findSenderWithFallback g conv = some (n, f) → dotSegments n ≤ 2) := by
  refine ⟨senderScanNodes_length g conv, ?_, ?_, ?_⟩
  · intro n f h
    obtain ⟨m, hm, hn, _⟩ := firstHit_mem _ _ _ _ _ h
    unfold dotSegments
    rw [count_append_str, hn]
    have h0 := direct_names_dotfree m hm
    have h1 : "client.".toList.count '.' = 1 := by decide
    rw [h1, h0]
    decide
  · intro n f h
    unfold dotSegments
    rw [count_append_str]
    have h1 : "client.".toList.count '.' = 1 := by decide
    rcases maker_path g client n f h with hm | ⟨m, hm, hn⟩
    · rw [h1, maker_names_dotfree n hm]
      decide
    · rw [hn, count_append_str, h1, maker_names_dotfree m hm]
      decide
  · intro hdot n f h
    unfold findSenderWithFallback at h
    unfold dotSegments
    split at h
    · rename_i r hr
      rw [Option.some.injEq] at h
      subst h
      have := conv_sender_dotfree g conv hdot _ _ hr
      omega
    · have := senderFallback_dots g conv hdot conv_sub_names
        (fun x hx => conv_sub_names_dotfree x hx) n f h
      omega

/-- Nodes of a client whose conversation object references itself
under the `messages` attribute (a cyclic object graph). -/
inductive N6 where
  | client
  | mkr
  | conv
deriving DecidableEq, Fintype

/-- The maker callable: one positional argument yields the (cyclic)
conversation object. -/
def makerFn6 : Fn N6 := fun sh =>
  match sh with
  | CallShape.pos1 _ => CallResult.ok (some N6.conv)
  | _ => CallResult.typeError "unexpected arguments"

/-- Cyclic graph: `conversation` maker on the client, and a
conversation whose only attribute, `messages`, is the conversation
itself. -/
def g6 : PyGraph N6 :=
  ⟨fun s =>
    match s with
    | N6.client => [("conversation", N6.mkr)]
    | N6.conv => [("messages", N6.conv)]
    | _ => [],
   fun s =>
    match s with
    | N6.mkr => some makerFn6
    | _ => none⟩

/-- Counterexample to C6: on a cyclic graph the sender search
enumerates the same object twice — the conversation's members are
scanned once directly and once again through its self-referential
`messages` attribute — so objects are not visited at most once by
identity (there is no identity-based deduplication, nor any max_depth
or max_nodes cap in the code; termination comes from the fixed name
lists alone, and the request still terminates here with a 502). -/
theorem C6_counterexample :
    senderScanNodes g6 N6.conv = [N6.conv, N6.conv]
    ∧ ¬ (senderScanNodes g6 N6.conv).Nodup
    ∧ send_sms_core g6 N6.client "+15551234567" "hi"
        = SendResult.httpError 502 (upstreamPre ++ noSendishDetail) :=
  ⟨rfl, by decide, rfl⟩

/-- Witness for C6 (amended) at concrete graphs: the node bound on the
graph with a self-loop, the direct path bound where `send_sms` is
found, and the sender path bound on the conversation client. -/
theorem C6_amended_witness :
    (senderScanNodes g6 N6.conv).length ≤ 5
    ∧ dotSegments ("client." ++ "send_sms") ≤ 4
    ∧ dotSegments "send" ≤ 2 :=
  ⟨(C6_amended N6 g6 N6.conv N6.client).1,
   (C6_amended N4 g4 N4.client N4.client).2.1 "send_sms" quotaFn rfl,
   (C6_amended N3 g3 N3.conv N3.client).2.2.2 (by decide) "send" sendFn3 rfl⟩

/-- Modelled from the spec: the deterministic candidate score of
section 4.1 (the source has no scoring function) — +1 when the path
has exactly one dot (a direct member of the root), +2 per distinct
hint term contained in the path, +3 when a high-confidence compound
term occurs. -/
def specScore (path : String) : Nat :=
  (if path.toList.count '.' = 1 then 1 else 0)
    + 2 * (send_hints.filter (fun h => containsSub (pyLower path) h)).length
    + (if ["send_sms", "send_message", "messages.send", "text"].any
          (fun t => containsSub (pyLower path) t) then 3 else 0)

/-- Modelled from the spec: stable descending insertion of one
candidate into an already ranked list (ties keep discovery order). -/
def rankInsert (p : String) : List String → List String
  | [] => [p]
  | q :: rest =>
    if specScore p < specScore q then q :: rankInsert p rest
    else p :: q :: rest

/-- Modelled from the spec: the ranked candidate list, a stable sort
of the breadth-first discovery order by descending score. -/
def specRankCandidates : List String → List String
  | [] => []
  | p :: rest => rankInsert p (specRankCandidates rest)

/-- Nodes of a client exposing exactly the callables `message` and
`sms`. -/
inductive N7 where
  | client
  | msgN
  | smsN
deriving DecidableEq, Fintype

/-- Both members accept everything and succeed. -/
def okFn7 : Fn N7 := fun _ => CallResult.ok none

/-- The two-callable client (dir order is alphabetical: `message`
before `sms`). -/
def g7 : PyGraph N7 :=
  ⟨fun s =>
    match s with
    | N7.client => [("message", N7.msgN), ("sms", N7.smsN)]
    | _ => [],
   fun s =>
    match s with
    | N7.msgN => some okFn7
    | N7.smsN => some okFn7
    | _ => none⟩

/-- Counterexample to C7: on a client exposing `message` and `sms`,
the claimed scoring gives both candidates the same score, so the
claimed tie-break (breadth-first discovery order, which is
alphabetical dir order: `client.message` first) would select
`client.message`; the code instead probes its fixed priority list and
selects `sms`, which it reports as the used path — the selection is
not governed by the claimed score-plus-discovery-order ranking. -/
theorem C7_counterexample :
    ((g7.members N7.client).map (fun p => "client." ++ p.fst))
      = ["client.message", "client.sms"]
    ∧ specScore "client.message" = specScore "client.sms"
    ∧ specRankCandidates ["client.message", "client.sms"]
        = ["client.message", "client.sms"]
    ∧ (_find_direct_send g7 N7.client).map Prod.fst = some "sms"
    ∧ send_sms_core g7 N7.client "+15551234567" "hi"
        = SendResult.ok "client.sms" "+15551234567" 2 :=
  ⟨rfl, by decide, by decide, rfl, rfl⟩

/-- C7 (amended): direct-sender selection is deterministic and
positional, not score-based: the chosen capability is the first name
of the fixed priority list `send_sms, send_message, send_text, text,
send, sms, message` that is present and callable on the client — in
particular a client-level `send_sms` is always preferred (deeper
members are never candidates at all), and every name earlier in the
priority list than the chosen one is absent or not callable. -/
theorem C7_amended (σ : Type) (g : PyGraph σ) (client : σ) :
    ((callableAt g client "send_sms").isSome = true →
        (_find_direct_send g client).map Prod.fst = some "send_sms")
    ∧ (∀ n f, _find_direct_send g client = some (n, f) →
        ∃ pre post, direct_send_names = pre ++ n :: post
          ∧ (∀ m ∈ pre, callableAt g client m = none)
          ∧ callableAt g client n = some f) := by
  constructor
  · intro h
    obtain ⟨f, hf⟩ := Option.isSome_iff_exists.mp h
    have hd : _find_direct_send g client = some ("send_sms", f) := by
      unfold _find_direct_send direct_send_names
      simp only [firstHit, hf]
    rw [hd]
    rfl
  · intro n f h
    obtain ⟨m, pre, post, heq, hn, hm, hpre⟩ := firstHit_split _ _ _ _ _ h
    refine ⟨pre, post, ?_, hpre, ?_⟩
    · rw [hn]
      exact heq
    · rw [hn]
      exact hm

/-- Witness for C7 (amended): on the client of the C4 graph, which
carries both `send_sms` and `send_message`, `send_sms` wins. -/
theorem C7_amended_witness :
    (_find_direct_send g4 N4.client).map Prod.fst = some "send_sms" :=
  (C7_amended N4 g4 N4.client).1 (by decide)

/-- The lexical hints of the claim: `send`, `text`, `sms`, `message`,
plus the conversation-maker hint. -/
def discovery_hints : List String :=
  ["send", "text", "sms", "message", "conversation"]

theorem hint_blocked :
    ∀ n ∈ direct_send_names ++ maker_names ++ ["conversations"],
      ∃ k ∈ discovery_hints, containsSub (pyLower n) k = true := by decide

theorem getAttr_none_of_hints {σ : Type} (g : PyGraph σ) (client : σ)
    (h : ∀ p ∈ g.members client, ∀ k ∈ discovery_hints,
        containsSub (pyLower p.fst) k = false)
    (name : String)
    (hblock : ∃ k ∈ discovery_hints, containsSub (pyLower name) k = true) :
    getAttr g client name = none := by
  cases hg : getAttr g client name with
  | none => rfl
  | some v =>
    obtain ⟨k, hk, hc⟩ := hblock
    have hmem : (name, v) ∈ g.members client := lookup_mem _ _ _ hg
    have h2 := h (name, v) hmem k hk
    rw [h2] at hc
    exact absurd hc (by simp)

/-- C9: when no attribute name of the client contains (in lowercase)
any hint substring — send, text, sms, message, or the conversation
hint — both discovery passes come back empty and the send request
fails with the no-candidates error (surfaced as a 502 whose detail is
the distinct no-send-method message). -/
theorem C9_no_candidates (σ : Type) (g : PyGraph σ) (client : σ)
    (dest message : String)
    (h : ∀ p ∈ g.members client, ∀ k ∈ discovery_hints,
        containsSub (pyLower p.fst) k = false) :
    _find_direct_send g client = none
    ∧ _find_conversation_maker g client = none
    ∧ send_sms_core g client dest message
        = SendResult.httpError 502 (upstreamPre ++ noCandidatesDetail) := by
  have hblockAll : ∀ n ∈ direct_send_names ++ maker_names ++ ["conversations"],
      getAttr g client n = none := fun n hn =>
    getAttr_none_of_hints g client h n (hint_blocked n hn)
  have hcall : ∀ n ∈ direct_send_names ++ maker_names ++ ["conversations"],
      callableAt g client n = none := by
    intro n hn
    unfold callableAt
    rw [hblockAll n hn]
    rfl
  have hdirect : _find_direct_send g client = none := by
    unfold _find_direct_send
    apply firstHit_none
    intro n hn
    exact hcall n (List.mem_append_left _ (List.mem_append_left _ hn))
  have hmaker : _find_conversation_maker g client = none := by
    unfold _find_conversation_maker
    have h1 : firstHit (callableAt g client) (fun n => n) maker_names = none := by
      apply firstHit_none
      intro n hn
      exact hcall n (List.mem_append_left _ (List.mem_append_right _ hn))
    have h2 : getAttr g client "conversations" = none :=
      hblockAll "conversations" (List.mem_append_right _ (by simp))
    rw [h1, h2]
  exact ⟨hdirect, hmaker, by simp only [send_sms_core, hdirect, hmaker]⟩

/-- Witness for C9 on the hint-free client (single attribute
`config`). -/
theorem C9_no_candidates_witness :
    send_sms_core g5 N5.client "+15551234567" "hi"
      = SendResult.httpError 502 (upstreamPre ++ noCandidatesDetail) :=
  (C9_no_candidates N5 g5 N5.client "+15551234567" "hi" (by decide)).2.2

/-- C10: phone-number normalization — exactly ten digit characters in
the stripped input produce "+1" followed by those digits; otherwise a
stripped input starting with "+" and holding at least eight digits is
returned unchanged; otherwise the request fails with the 400 invalid
format error; and the `/send` endpoint performs normalization first,
so a normalization failure yields the 400 regardless of the client
(no client construction or discovery happens). -/
theorem C10_normalize (σ : Type) (g : PyGraph σ) (clientRes : Except String σ)
    (body : SendBody) (raw : String) :
    (((pyStrip raw).toList.filter Char.isDigit).length = 10 →
      normalize_number raw
        = Except.ok ("+1" ++ String.mk ((pyStrip raw).toList.filter Char.isDigit)))
    ∧ (((pyStrip raw).toList.filter Char.isDigit).length ≠ 10 →
        pyStartsWith (pyStrip raw) "+" = true →
        8 ≤ ((pyStrip raw).toList.filter Char.isDigit).length →
        normalize_number raw = Except.ok (pyStrip raw))
    ∧ (((pyStrip raw).toList.filter Char.isDigit).length ≠ 10 →
        ¬(pyStartsWith (pyStrip raw) "+" = true
            ∧ 8 ≤ ((pyStrip raw).toList.filter Char.isDigit).length) →
        normalize_number raw = Except.error invalidPhoneDetail)
    ∧ (∀ d, normalize_number body.dest = Except.error d →
        send_sms g clientRes body = SendResult.httpError 400 d) := by
  refine ⟨?_, ?_, ?_, ?_⟩
  · intro h
    unfold normalize_number
    rw [if_pos h]
  · intro h hplus hlen
    unfold normalize_number
    rw [if_neg h, if_pos ⟨hplus, hlen⟩]
  · intro h hnot
    unfold normalize_number
    rw [if_neg h, if_neg hnot]
  · intro d hd
    simp only [send_sms, hd]

/-- An empty client graph for the endpoint witness. -/
def gU : PyGraph Unit := ⟨fun _ => [], fun _ => none⟩

/-- Witness for C10 on concrete inputs: a ten-digit US number, an
E.164 number with surrounding whitespace, an invalid number, and the
endpoint short-circuit on the invalid number. -/
theorem C10_normalize_witness :
    normalize_number "8322966196"
      = Except.ok ("+1" ++ String.mk
          ((pyStrip "8322966196").toList.filter Char.isDigit))
    ∧ normalize_number " +44 791 112 3456 "
        = Except.ok (pyStrip " +44 791 112 3456 ")
    ∧ normalize_number "123" = Except.error invalidPhoneDetail
    ∧ send_sms gU (Except.ok ()) ⟨"123", "hi"⟩
        = SendResult.httpError 400 invalidPhoneDetail :=
  ⟨(C10_normalize Unit gU (Except.ok ()) ⟨"123", "hi"⟩ "8322966196").1 (by decide),
   (C10_normalize Unit gU (Except.ok ()) ⟨"123", "hi"⟩ " +44 791 112 3456 ").2.1
     (by decide) (by decide) (by decide),
   (C10_normalize Unit gU (Except.ok ()) ⟨"123", "hi"⟩ "123").2.2.1
     (by decide) (by decide),
   (C10_normalize Unit gU (Except.ok ()) ⟨"123", "hi"⟩ "x").2.2.2
     invalidPhoneDetail (by rfl)⟩
